import Mathlib

/-!
Verification development for the Lora adaptive multi-tier fact-checking
pipeline.

The definitions below are a shallow embedding of the JavaScript sources:

* `src/backend/services/ultraSpeed.js` — tier scheduler, delta verification,
  consensus scoring and result merging (`runWithTimeout`, `runBucket`,
  `computeBucketScore`, `shouldRunMidBucket`, `shouldRunFullBucket`,
  `mergeResults`, `ultraSpeedCheck`);
* `src/backend/services/truthfulnessSpectrum.js` — personal-statement filter,
  truthfulness spectrum and verdict labelling (`detectPersonalStatement`,
  `computeTruthfulnessSpectrum`, `getVerdictFromScore`);
* the semantic cache module — `hashText` normalization, `cosineSimilarity`
  and `checkSemanticCache`;
* `src/backend/services/inputCompressor.js` — `quickClean`.

Modelling conventions:

* JavaScript numbers are embedded as exact rationals (`ℚ`); `Math.round` is
  `jsRound` (round half toward positive infinity); integer-valued scores use
  `ℤ`.
* Strings are Lean `String`s; character-level processing happens on
  `List Char`.  Character classes (`\s`, `\w`, case mapping) are modelled at
  the ASCII level, which is the range the pipeline's own string literals and
  tests exercise.
* External effects (model calls, embedding generation, the process-global
  cache stores, timers and logging) are supplied by an `Env` record: each
  verifier invocation's outcome (answer, timeout, or outright failure) is a
  field of the environment, as are the results the two cache stores would
  return for the request's cleaned text.  Latency bookkeeping and log output
  are not modelled.
* The regular-expression pattern lists of `detectPersonalStatement`
  (anecdotal / emotional / non-claim / opinion) are abstracted as boolean
  predicates supplied by the environment; the length guards that precede
  them are modelled exactly.
-/

/-- JavaScript `Math.round`: round half toward positive infinity. -/
def jsRound (q : ℚ) : ℤ := Int.floor (q + 1/2)

/-! ## Character-level utilities -/

/-- Whitespace test used for both `trim` and the `\s` character class. -/
def isWsB (c : Char) : Bool := c = ' ' || c = '\t' || c = '\n' || c = '\r'

/-- ASCII lowercasing of a single character, as `String.prototype.toLowerCase`
acts on the ASCII range (65–90 are the code points of A–Z). -/
def jsLowerChar (c : Char) : Char :=
  if 65 ≤ c.toNat ∧ c.toNat ≤ 90 then Char.ofNat (c.toNat + 32) else c

/-- Lowercase every character of a list. -/
def toLowerL (l : List Char) : List Char := l.map jsLowerChar

/-- JavaScript `String.prototype.trim`: drop leading and trailing whitespace. -/
def trimL (l : List Char) : List Char :=
  ((l.dropWhile isWsB).reverse.dropWhile isWsB).reverse

/-- Worker for whitespace collapsing; the flag records whether the previous
character was whitespace (so the current run has already emitted its space). -/
def collapseWsAux : Bool → List Char → List Char
  | _, [] => []
  | prevWs, c :: cs =>
    if isWsB c then
      if prevWs then collapseWsAux true cs
      else ' ' :: collapseWsAux true cs
    else c :: collapseWsAux false cs

/-- JavaScript `replace(/\s+/g, ' ')`: every maximal whitespace run becomes a
single space. -/
def collapseWsL (l : List Char) : List Char := collapseWsAux false l

/-- Prefix test on character lists. -/
def isPrefixL : List Char → List Char → Bool
  | [], _ => true
  | _ :: _, [] => false
  | p :: ps, c :: cs => p = c && isPrefixL ps cs

/-- Substring containment test (`String.prototype.includes`). -/
def containsSub : List Char → List Char → Bool
  | [], pat => pat.isEmpty
  | l@(_ :: cs), pat => isPrefixL pat l || containsSub cs pat

/-- The normalization inside `hashText` in the semantic cache module:
`text.toLowerCase().trim().replace(/\s+/g, ' ')`.  The SHA-256 digest taken
afterwards is injective for the purposes of cache keying and is not modelled;
the cache key is the normalized text itself. -/
def normalizeForHash (l : List Char) : List Char :=
  collapseWsL (trimL (toLowerL l))

/-- String-level wrapper of `normalizeForHash`. -/
def normalizeForHashS (s : String) : String := ⟨normalizeForHash s.data⟩

/-! ## quickClean, from inputCompressor.js -/

/-- Membership in the emoji code-point ranges removed by `quickClean`
(`/[\u{1F300}-\u{1F9FF}]|[\u{2600}-\u{26FF}]|[\u{2700}-\u{27BF}]|[\u{1F600}-\u{1F64F}]|[\u{1F680}-\u{1F6FF}]/gu`). -/
def isEmojiChar (c : Char) : Bool :=
  let n := c.toNat
  (0x1F300 ≤ n && n ≤ 0x1F9FF) || (0x2600 ≤ n && n ≤ 0x26FF) ||
  (0x2700 ≤ n && n ≤ 0x27BF) || (0x1F600 ≤ n && n ≤ 0x1F64F) ||
  (0x1F680 ≤ n && n ≤ 0x1F6FF)

/-- Remove every emoji code point. -/
def removeEmoji (l : List Char) : List Char := l.filter (fun c => !isEmojiChar c)

/-- The punctuation class of the repeated-punctuation rule `([!?.])\1+`. -/
def isPunctRep (c : Char) : Bool := c = '!' || c = '?' || c = '.'

/-- Worker for repeated-punctuation collapsing; the first argument is the last
character already emitted. -/
def collapsePunctAux : Char → List Char → List Char
  | _, [] => []
  | prev, c :: cs =>
    if c = prev && isPunctRep c then collapsePunctAux prev cs
    else c :: collapsePunctAux c cs

/-- JavaScript `replace(/([!?.])\1+/g, '$1')`: collapse runs of an identical
`!`, `?` or `.` to a single occurrence. -/
def collapsePunct : List Char → List Char
  | [] => []
  | c :: cs => c :: collapsePunctAux c cs

/-- The `\w` character class of JavaScript regular expressions (no `u` flag). -/
def isWordCharB (c : Char) : Bool :=
  ('a' ≤ c && c ≤ 'z') || ('A' ≤ c && c ≤ 'Z') || ('0' ≤ c && c ≤ '9') || c = '_'

/-- Case-insensitive literal prefix match (pattern, then text); returns the
remaining text on success. -/
def matchCI : List Char → List Char → Option (List Char)
  | [], l => some l
  | _ :: _, [] => none
  | p :: ps, c :: cs => if jsLowerChar c = jsLowerChar p then matchCI ps cs else none

/-- Case-sensitive literal prefix match (pattern, then text). -/
def matchLit : List Char → List Char → Option (List Char)
  | [], l => some l
  | _ :: _, [] => none
  | p :: ps, c :: cs => if c = p then matchLit ps cs else none

/-- True when the text is exhausted or starts with a non-word character, the
two situations in which a trailing `\b` after a word character succeeds. -/
def nonWordOrEnd : List Char → Bool
  | [] => true
  | c :: _ => !isWordCharB c

/-- The filler alternatives of
`/\b(um|uh|like|basically|literally|actually|you know|i mean)\b/gi`,
in source order. -/
def fillerWords : List (List Char) :=
  ["um".data, "uh".data, "like".data, "basically".data, "literally".data,
   "actually".data, "you know".data, "i mean".data]

/-- Try the filler alternatives at the current position (which the caller has
checked to be a word boundary); a successful match must be followed by a
non-word character or the end of the text. -/
def tryFiller (l : List Char) : Option (List Char) :=
  fillerWords.findSome? fun w =>
    match matchCI w l with
    | some rest => if nonWordOrEnd rest then some rest else none
    | none => none

/-- Filler removal scanner.  The boolean records whether the previous
character is a word character (in which case the current position is not a
word boundary and no match is attempted).  The fuel is at least the length of
the list, so it never runs out. -/
def removeFillersGo : Nat → Bool → List Char → List Char
  | 0, _, l => l
  | _ + 1, _, [] => []
  | fuel + 1, prevWord, c :: cs =>
    if prevWord then c :: removeFillersGo fuel (isWordCharB c) cs
    else
      match tryFiller (c :: cs) with
      | some rest => removeFillersGo fuel true rest
      | none => c :: removeFillersGo fuel (isWordCharB c) cs

/-- JavaScript
`replace(/\b(um|uh|like|basically|literally|actually|you know|i mean)\b/gi, '')`. -/
def removeFillers (l : List Char) : List Char := removeFillersGo l.length false l

/-- Match `https?:\/\/[^\s]+` at the current position; returns the text after
the URL on success. -/
def tryUrl (l : List Char) : Option (List Char) :=
  match matchLit "https://".data l with
  | some rest =>
    match rest with
    | [] => none
    | c :: _ => if isWsB c then none else some (rest.dropWhile (fun d => !isWsB d))
  | none =>
    match matchLit "http://".data l with
    | some rest =>
      match rest with
      | [] => none
      | c :: _ => if isWsB c then none else some (rest.dropWhile (fun d => !isWsB d))
    | none => none

/-- URL replacement scanner (fuel is at least the length of the list). -/
def replaceUrlsGo : Nat → List Char → List Char
  | 0, l => l
  | _ + 1, [] => []
  | fuel + 1, c :: cs =>
    match tryUrl (c :: cs) with
    | some rest => "[link]".data ++ replaceUrlsGo fuel rest
    | none => c :: replaceUrlsGo fuel cs

/-- JavaScript `replace(/https?:\/\/[^\s]+/g, '[link]')`. -/
def replaceUrls (l : List Char) : List Char := replaceUrlsGo l.length l

/-- Match `\b(\w+)\s+\1\b` at the current position (a word boundary); returns
the captured first word and the text after the whole match.  The backreference
is case-insensitive (`i` flag) and, because `\s+` must follow the capture, the
greedy `\w+` can only match the maximal word. -/
def matchRepWord (l : List Char) : Option (List Char × List Char) :=
  let w := l.takeWhile isWordCharB
  if w.isEmpty then none
  else
    let afterW := l.drop w.length
    let ws := afterW.takeWhile isWsB
    if ws.isEmpty then none
    else
      let afterWs := afterW.drop ws.length
      let w2 := afterWs.take w.length
      let rest := afterWs.drop w.length
      if w2.length = w.length && (toLowerL w2 = toLowerL w) && nonWordOrEnd rest
      then some (w, rest) else none

/-- Repeated-word replacement scanner (see `removeFillersGo` for the roles of
the fuel and the boundary flag). -/
def removeRepeatedGo : Nat → Bool → List Char → List Char
  | 0, _, l => l
  | _ + 1, _, [] => []
  | fuel + 1, prevWord, c :: cs =>
    if prevWord then c :: removeRepeatedGo fuel (isWordCharB c) cs
    else
      match matchRepWord (c :: cs) with
      | some (w, rest) => w ++ removeRepeatedGo fuel true rest
      | none => c :: removeRepeatedGo fuel (isWordCharB c) cs

/-- JavaScript `replace(/\b(\w+)\s+\1\b/gi, '$1')`. -/
def removeRepeated (l : List Char) : List Char := removeRepeatedGo l.length false l

/-- Embedding of `quickClean` from inputCompressor.js: the exact chain of replacements, in
source order (emoji removal, whitespace collapse, repeated punctuation, filler
phrases, URLs, repeated words, whitespace collapse again, trim). -/
def quickCleanL (l : List Char) : List Char :=
  let s1 := removeEmoji l
  let s2 := collapseWsL s1
  let s3 := collapsePunct s2
  let s4 := removeFillers s3
  let s5 := replaceUrls s4
  let s6 := removeRepeated s5
  trimL (collapseWsL s6)

/-- String-level `quickClean`; a non-string or empty input yields `""`, which
in the typed embedding is just the empty-list case of `quickCleanL`. -/
def quickClean (s : String) : String := ⟨quickCleanL s.data⟩

/-! ## Personal-statement filter, from truthfulnessSpectrum.js -/

/-- Result of `detectPersonalStatement`. -/
structure PersonalCheck where
  isPersonal : Bool
  reason : String
  confidence : ℤ
  deriving DecidableEq, Repr

/-- The four regular-expression pattern groups of `detectPersonalStatement`
(anecdotal, emotional, non-claim, opinion), abstracted as boolean predicates
on the lowercased, trimmed text.  The guards that precede them (empty input,
length below 10) are modelled exactly, so these predicates are only consulted
for inputs of trimmed length at least 10. -/
structure PatternOracle where
  anecdotal : String → Bool
  emotional : String → Bool
  nonClaim : String → Bool
  opinion : String → Bool

/-- Embedding of `detectPersonalStatement` from truthfulnessSpectrum.js.  In the typed
embedding the input is always a string, so of the JavaScript guard
`!text || typeof text !== 'string'` only the empty-string (falsy) case
remains. -/
def detectPersonalStatement (pat : PatternOracle) (text : String) : PersonalCheck :=
  if text = "" then ⟨true, "invalid input", 100⟩
  else
    let lower : String := ⟨trimL (toLowerL text.data)⟩
    if lower.data.length = 0 then ⟨true, "empty input", 100⟩
    else if lower.data.length < 10 then ⟨true, "too short to be a factual claim", 80⟩
    else if pat.anecdotal lower then ⟨true, "anecdotal/personal story", 85⟩
    else if pat.emotional lower then ⟨true, "emotional expression", 80⟩
    else if pat.nonClaim lower then ⟨true, "non-factual content", 90⟩
    else if pat.opinion lower then ⟨true, "subjective opinion", 75⟩
    else ⟨false, "appears to be a factual claim", 70⟩

/-! ## Verifier calls and buckets, from ultraSpeed.js -/

/-- What one external verifier call does for this request: return an answer,
exceed the bucket timeout, or fail outright.  The confidence is optional
because the verifier's JSON may omit it (`undefined`). -/
inductive VerifierOutcome where
  | ok (verdict : String) (confidence : Option ℚ)
  | timeout
  | failure (message : String)
  deriving DecidableEq

/-- The value `runWithTimeout` resolves with: either a (possibly synthesized)
successful response or a failure record that `runBucket` will drop. -/
structure ModelResponse where
  success : Bool
  model : String
  verdict : String
  confidence : Option ℚ
  timedOut : Bool
  deriving DecidableEq, Repr

/-- Embedding of `runWithTimeout` from ultraSpeed.js: a timeout is converted into a
successful-but-degraded `unverifiable` response with confidence 25 and
`timedOut: true`; any other error yields a `success: false` record.  The
function is total — no exception propagates. -/
def runWithTimeout (modelName : String) (outcome : VerifierOutcome) : ModelResponse :=
  match outcome with
  | .ok v c => ⟨true, modelName, v, c, false⟩
  | .timeout => ⟨true, modelName, "unverifiable", some 25, true⟩
  | .failure _ => ⟨false, modelName, "", none, false⟩

/-- One entry of a bucket's model list. -/
structure ModelSpec where
  name : String
  weight : ℚ
  deriving DecidableEq

/-- One bucket of `MODEL_BUCKETS`. -/
structure BucketSpec where
  timeout : ℕ
  weight : ℚ
  models : List ModelSpec
  deriving DecidableEq

/-- Embedding of `MODEL_BUCKETS` from ultraSpeed.js (an unknown bucket name yields the
empty bucket; the pipeline only ever uses FAST, MID and FULL). -/
def MODEL_BUCKETS (name : String) : BucketSpec :=
  if name = "FAST" then
    ⟨1500, 0.8, [⟨"GPT-4o-mini", 1.0⟩, ⟨"Gemini-Flash", 1.0⟩, ⟨"Perplexity-Lite", 0.9⟩]⟩
  else if name = "MID" then
    ⟨3500, 1.0, [⟨"GPT-4o", 1.1⟩, ⟨"Gemini-Pro", 1.0⟩]⟩
  else if name = "FULL" then
    ⟨10000, 1.2, [⟨"GPT-4o-Full", 1.2⟩, ⟨"Claude-Sonnet", 1.3⟩,
                  ⟨"Gemini-Full", 1.1⟩, ⟨"Perplexity-Full", 1.0⟩]⟩
  else ⟨0, 0, []⟩

/-- Embedding of `runBucket` from ultraSpeed.js: run every model of the bucket (the
per-call outcomes are supplied by `call`), then keep only the fulfilled,
successful responses.  Which input text variant (cleaned or compressed) a
model received is absorbed into its outcome. -/
def runBucket (call : String → String → VerifierOutcome) (bucketName : String) :
    List ModelResponse :=
  ((MODEL_BUCKETS bucketName).models.map
      (fun m => runWithTimeout m.name (call bucketName m.name))).filter
    (fun r => r.success)

/-! ## Consensus scoring, from truthfulnessSpectrum.js and ultraSpeed.js -/

/-- The `VERDICT_SCORES` lookup (exact match step of `normalizeVerdict`). -/
def VERDICT_SCORES (v : String) : Option ℚ :=
  if v = "true" then some 1.0
  else if v = "mostly_true" then some 0.8
  else if v = "partially_true" then some 0.5
  else if v = "mixed" then some 0.5
  else if v = "unverifiable" then some 0.35
  else if v = "mostly_false" then some 0.2
  else if v = "false" then some 0.0
  else none

/-- Embedding of `normalizeVerdict` from truthfulnessSpectrum.js: exact lookup after
lowercasing and `[_-] → _`, then substring heuristics, defaulting to 0.35. -/
def normalizeVerdict (verdict : String) : ℚ :=
  if verdict = "" then 0.35
  else
    let n := (toLowerL verdict.data).map (fun c => if c = '-' then '_' else c)
    match VERDICT_SCORES ⟨n⟩ with
    | some s => s
    | none =>
      if containsSub n "true".data && !containsSub n "false".data then
        if containsSub n "partial".data || containsSub n "mixed".data then 0.5
        else if containsSub n "mostly".data then 0.8
        else 1.0
      else if containsSub n "false".data then
        if containsSub n "mostly".data then 0.2 else 0.0
      else 0.35

/-- One entry of the spectrum's per-model breakdown. -/
structure BreakdownEntry where
  model : String
  verdict : String
  confidence : ℚ
  baseScore : ℤ
  weightedScore : ℤ
  deriving DecidableEq, Repr

/-- Result of `computeTruthfulnessSpectrum`. -/
structure SpectrumOut where
  score : Option ℤ
  modelBreakdown : List BreakdownEntry
  consensus : String
  deriving DecidableEq, Repr

/-- Embedding of `computeTruthfulnessSpectrum` from truthfulnessSpectrum.js: a
confidence-weighted average of the normalized verdicts, rounded to a 0–100
integer, or `none` when the total weight is zero; a missing confidence
defaults to 70. -/
def computeTruthfulnessSpectrum (modelResponses : List ModelResponse) : SpectrumOut :=
  if modelResponses.isEmpty then ⟨none, [], "unknown"⟩
  else
    let acc := modelResponses.foldl
      (fun (acc : ℚ × ℚ × List BreakdownEntry) r =>
        let conf := r.confidence.getD 70
        let baseScore := normalizeVerdict r.verdict
        let weight := min 100 (max 0 conf) / 100
        let contribution := baseScore * weight
        (acc.1 + contribution, acc.2.1 + weight,
         acc.2.2 ++ [⟨r.model, r.verdict, conf,
                      jsRound (baseScore * 100), jsRound (contribution * 100)⟩]))
      (0, 0, [])
    let finalScore : Option ℤ :=
      if acc.2.1 > 0 then some (jsRound (acc.1 / acc.2.1 * 100)) else none
    let consensus :=
      match finalScore with
      | none => "unknown"
      | some s =>
        if s ≥ 80 then "true"
        else if s ≥ 60 then "mostly_true"
        else if s ≥ 40 then "mixed"
        else if s ≥ 20 then "mostly_false"
        else "false"
    ⟨finalScore, acc.2.2, consensus⟩

/-- JavaScript truthiness of the optional confidence field (`r.confidence`):
false for an absent value and for 0. -/
def confTruthy (c : Option ℚ) : Bool :=
  match c with
  | some q => q ≠ 0
  | none => false

/-- The coarse agreement bucket of one response inside `computeBucketScore`:
`v.includes('true') ? 100 : v.includes('false') ? 0 : 50` on the lowercased
verdict. -/
def bucketOf (r : ModelResponse) : ℤ :=
  if containsSub (toLowerL r.verdict.data) "true".data then 100
  else if containsSub (toLowerL r.verdict.data) "false".data then 0
  else 50

/-- The coarse bucket list over which `computeBucketScore` checks agreement:
one bucket per response whose verdict and confidence are truthy. -/
def agreementScores (responses : List ModelResponse) : List ℤ :=
  (responses.filter (fun r => r.verdict ≠ "" && confTruthy r.confidence)).map bucketOf

/-- Aggregate result of one bucket. -/
structure BucketScore where
  score : Option ℤ
  confidence : ℚ
  agreement : Bool
  breakdown : List BreakdownEntry
  deriving DecidableEq, Repr

/-- Embedding of `computeBucketScore` from ultraSpeed.js: spectrum score, coarse agreement
over the responses with a truthy verdict and confidence
(`Math.max(...scores, 0) - Math.min(...scores, 100) <= 30`), and a confidence
of 0.92 (agreement) or 0.75 (disagreement) scaled by `responses.length / 3`
and clamped to 1. -/
def computeBucketScore (responses : List ModelResponse) : BucketScore :=
  if responses.isEmpty then ⟨none, 0, false, []⟩
  else
    let spectrum := computeTruthfulnessSpectrum responses
    let scores := agreementScores responses
    let maxScore := scores.foldl max 0
    let minScore := scores.foldl min 100
    let agreement := !scores.isEmpty && decide (maxScore - minScore ≤ 30)
    let confidence : ℚ :=
      if spectrum.score ≠ none then
        min 1 ((if agreement then 0.92 else 0.75) * (responses.length / 3))
      else 0
    ⟨spectrum.score, confidence, agreement, spectrum.modelBreakdown⟩

/-! ## Delta verification, merging, verdict labels -/

/-- Embedding of `shouldRunMidBucket` from ultraSpeed.js: escalate unless the FAST
confidence reaches `SKIP_MID_THRESHOLD` (0.88) and the FAST models agree. -/
def shouldRunMidBucket (fastResult : BucketScore) : Bool :=
  decide (fastResult.confidence < 0.88) || !fastResult.agreement

/-- Embedding of `shouldRunFullBucket` from ultraSpeed.js: with a MID result, a
FAST-vs-MID score gap above 20 always escalates; otherwise escalate when the
0.4/0.6 combined confidence is below `SKIP_FULL_THRESHOLD` (0.90) or either
bucket disagreed internally. -/
def shouldRunFullBucket (fastResult : BucketScore) (midResult : Option BucketScore) :
    Bool :=
  match midResult with
  | none => decide (fastResult.confidence < 0.90)
  | some mid =>
    let combinedConfidence := fastResult.confidence * 0.4 + mid.confidence * 0.6
    let bothAgree := fastResult.agreement && mid.agreement
    let bigDiff :=
      match fastResult.score, mid.score with
      | some f, some m => decide ((f - m).natAbs > 20)
      | _, _ => false
    if bigDiff then true
    else decide (combinedConfidence < 0.90) || !bothAgree

/-- The merged record that `mergeResults` produces. -/
structure MergedResult where
  score : Option ℤ
  confidence : ℚ
  breakdown : List BreakdownEntry
  source : String
  deriving DecidableEq, Repr

/-- Embedding of `mergeResults` from ultraSpeed.js: a FULL score wins outright (the
>15-point deviation from FAST is only logged); else a MID score is blended
`round(0.3·(fast.score || 0) + 0.7·mid.score)` with the matching confidence
blend; else the FAST result passes through. -/
def mergeResults (fastResult : BucketScore) (midResult fullResult : Option BucketScore) :
    MergedResult :=
  match fullResult with
  | some fu =>
    match fu.score with
    | some s => ⟨some s, fu.confidence, fu.breakdown, "full"⟩
    | none =>
      match midResult with
      | some mid =>
        match mid.score with
        | some ms =>
          ⟨some (jsRound (((fastResult.score.getD 0 : ℤ) : ℚ) * 0.3 + (ms : ℚ) * 0.7)),
           fastResult.confidence * 0.3 + mid.confidence * 0.7,
           fastResult.breakdown ++ mid.breakdown, "mid"⟩
        | none => ⟨fastResult.score, fastResult.confidence, fastResult.breakdown, "fast"⟩
      | none => ⟨fastResult.score, fastResult.confidence, fastResult.breakdown, "fast"⟩
  | none =>
    match midResult with
    | some mid =>
      match mid.score with
      | some ms =>
        ⟨some (jsRound (((fastResult.score.getD 0 : ℤ) : ℚ) * 0.3 + (ms : ℚ) * 0.7)),
         fastResult.confidence * 0.3 + mid.confidence * 0.7,
         fastResult.breakdown ++ mid.breakdown, "mid"⟩
      | none => ⟨fastResult.score, fastResult.confidence, fastResult.breakdown, "fast"⟩
    | none => ⟨fastResult.score, fastResult.confidence, fastResult.breakdown, "fast"⟩

/-- Embedding of `getVerdictFromScore` from truthfulnessSpectrum.js. -/
def getVerdictFromScore (score : Option ℤ) : String :=
  match score with
  | none => "UNKNOWN"
  | some s => if s ≥ 70 then "TRUE" else if s ≥ 40 then "MIXED" else "FALSE"

/-! ## The ultra-speed pipeline -/

/-- The `usedModels` record of the pipeline result. -/
structure UsedModels where
  fast : List String
  mid : List String
  full : List String
  deriving DecidableEq, Repr

/-- The externally visible pipeline result (latency bookkeeping and the
free-text `loraMessage` are not modelled). -/
structure PipelineResult where
  mode : String
  claim : String
  score : Option ℤ
  confidence : Option ℚ
  loraVerdict : Option String
  reason : Option String
  usedModels : UsedModels
  skippedAll : Bool
  skippedMid : Bool
  skippedFull : Bool
  source : Option String
  fromCache : Bool
  cacheType : Option String
  cacheSimilarity : Option ℚ
  breakdown : List BreakdownEntry
  deriving DecidableEq, Repr

/-- The per-request environment: the outcome of every potential verifier
invocation (bucket name, model name), the abstracted personal-statement
pattern groups, and what each cache store would answer for a given cleaned
text (the stores are process-global mutable state outside the pipeline). -/
structure Env where
  call : String → String → VerifierOutcome
  patterns : PatternOracle
  exactLookup : String → Option PipelineResult
  semanticLookup : String → Option (PipelineResult × ℚ)

/-- Which externally observable operations a run performed. -/
structure Trace where
  exactChecked : Bool
  semanticChecked : Bool
  fastRan : Bool
  midRan : Bool
  fullRan : Bool
  deriving DecidableEq, Repr

/-- A pipeline result together with its operation trace. -/
structure PipelineOutput where
  result : PipelineResult
  trace : Trace
  deriving Repr

/-- Outcome of the verification phases (steps 4–8 of `ultraSpeedCheck`). -/
structure PhasesOut where
  fastResult : BucketScore
  midResult : Option BucketScore
  fullResult : Option BucketScore
  merged : MergedResult
  usedModels : UsedModels
  skippedMid : Bool
  skippedFull : Bool
  midRan : Bool
  fullRan : Bool
  deriving Repr

/-- Steps 4–8 of `ultraSpeedCheck`: FAST bucket, delta gates, optional MID and
FULL buckets, merge. -/
def runPhases (call : String → String → VerifierOutcome) : PhasesOut :=
  let fastResponses := runBucket call "FAST"
  let fastUsed := fastResponses.map (fun r => r.model)
  let fastResult := computeBucketScore fastResponses
  let needsMid := shouldRunMidBucket fastResult
  if !needsMid then
    { fastResult := fastResult, midResult := none, fullResult := none,
      merged := mergeResults fastResult none none,
      usedModels := ⟨fastUsed, [], []⟩, skippedMid := true, skippedFull := true,
      midRan := false, fullRan := false }
  else
    let midResponses := runBucket call "MID"
    let midResult := computeBucketScore midResponses
    let needsFull := shouldRunFullBucket fastResult (some midResult)
    if !needsFull then
      { fastResult := fastResult, midResult := some midResult, fullResult := none,
        merged := mergeResults fastResult (some midResult) none,
        usedModels := ⟨fastUsed, midResponses.map (fun r => r.model), []⟩,
        skippedMid := false, skippedFull := true, midRan := true, fullRan := false }
    else
      let fullResponses := runBucket call "FULL"
      let fullResult := computeBucketScore fullResponses
      { fastResult := fastResult, midResult := some midResult,
        fullResult := some fullResult,
        merged := mergeResults fastResult (some midResult) (some fullResult),
        usedModels := ⟨fastUsed, midResponses.map (fun r => r.model),
                       fullResponses.map (fun r => r.model)⟩,
        skippedMid := false, skippedFull := false, midRan := true, fullRan := true }

/-- Embedding of `ultraSpeedCheck` from ultraSpeed.js: personal filter, exact cache,
semantic cache, then the verification phases, merge and labelling.  The
speculative embedding/source-search tasks and the final cache write have no
effect on the returned fields modelled here. -/
def ultraSpeedCheck (env : Env) (text : String) : PipelineOutput :=
  let personalCheck := detectPersonalStatement env.patterns text
  if personalCheck.isPersonal then
    { result := { mode := "personal", claim := text, score := none, confidence := none,
                  loraVerdict := none, reason := some personalCheck.reason,
                  usedModels := ⟨[], [], []⟩, skippedAll := true, skippedMid := false,
                  skippedFull := false, source := none, fromCache := false,
                  cacheType := none, cacheSimilarity := none, breakdown := [] },
      trace := ⟨false, false, false, false, false⟩ }
  else
    let cleanedText := quickClean text
    match env.exactLookup cleanedText with
    | some data =>
      { result := { data with fromCache := true, cacheType := some "exact" },
        trace := ⟨true, false, false, false, false⟩ }
    | none =>
      match env.semanticLookup cleanedText with
      | some (data, sim) =>
        let updated := { data with fromCache := true, cacheType := some "semantic",
                                   cacheSimilarity := some sim }
        { result := updated, trace := ⟨true, true, false, false, false⟩ }
      | none =>
        let ph := runPhases env.call
        { result := { mode := "fact_check", claim := text, score := ph.merged.score,
                      confidence := some ph.merged.confidence,
                      loraVerdict := some (getVerdictFromScore ph.merged.score),
                      reason := none, usedModels := ph.usedModels,
                      skippedAll := false, skippedMid := ph.skippedMid,
                      skippedFull := ph.skippedFull,
                      source := some ph.merged.source, fromCache := false,
                      cacheType := none, cacheSimilarity := none,
                      breakdown := ph.merged.breakdown },
          trace := ⟨true, true, true, ph.midRan, ph.fullRan⟩ }

/-! ## Semantic cache, from the semantic cache module -/

/-- Sum of squares accumulated by the `cosineSimilarity` loop. -/
def sumSq (a : List ℝ) : ℝ := a.foldl (fun s x => s + x * x) 0

/-- Dot product accumulated by the `cosineSimilarity` loop. -/
def dotL (a b : List ℝ) : ℝ := (a.zip b).foldl (fun s p => s + p.1 * p.2) 0

open Classical in
/-- Embedding of `cosineSimilarity` from the semantic cache module: 0 for an undefined
vector or a length mismatch, 0 again when either norm is zero, otherwise the
normalized dot product.  Embedding coordinates are modelled as real
numbers. -/
noncomputable def cosineSimilarity (a b : Option (List ℝ)) : ℝ :=
  match a, b with
  | some a, some b =>
    if a.length = b.length then
      let normA := Real.sqrt (sumSq a)
      let normB := Real.sqrt (sumSq b)
      if normA = 0 ∨ normB = 0 then 0 else dotL a b / (normA * normB)
    else 0
  | _, _ => 0

/-- One semantic cache entry (`{ embedding, data, timestamp, text }`). -/
structure SemEntry where
  embedding : List ℝ
  data : PipelineResult
  timestamp : ℤ
  text : String

/-- The entries surviving the TTL filter at lookup time
(`semanticCache.filter(e => now - e.timestamp < SEMANTIC_CACHE_TTL)`). -/
def liveEntries (store : List SemEntry) (now ttl : ℤ) : List SemEntry :=
  store.filter (fun e => now - e.timestamp < ttl)

/-- Result of a semantic cache lookup. -/
inductive SemLookup where
  | hit (similarity : ℝ) (data : PipelineResult) (originalText : String)
  | miss

open Classical in
/-- One step of the best-match scan inside `checkSemanticCache`: keep the
running best entry, replacing it when the current entry is strictly more
similar and meets `SIMILARITY_THRESHOLD` (0.93); `bestSimilarity` starts
at 0. -/
noncomputable def semanticScanStep (q : List ℝ) (acc : Option (ℝ × SemEntry))
    (e : SemEntry) : Option (ℝ × SemEntry) :=
  let similarity := cosineSimilarity (some q) (some e.embedding)
  let bestSim : ℝ := match acc with | none => 0 | some (bs, _) => bs
  if similarity > bestSim ∧ similarity ≥ 0.93 then some (similarity, e) else acc

/-- The best-match scan of `checkSemanticCache` (the exact-cache re-check and
the embedding fetch that precede it are modelled by the pipeline
environment): expired entries are dropped, then the entry with the highest
similarity is selected, accepted only when its similarity reaches
`SIMILARITY_THRESHOLD` (0.93); with no query embedding the lookup misses. -/
noncomputable def checkSemanticCache (store : List SemEntry) (now ttl : ℤ)
    (embedding : Option (List ℝ)) : SemLookup :=
  match embedding with
  | none => .miss
  | some q =>
    match (liveEntries store now ttl).foldl (semanticScanStep q) none with
    | some (s, e) => .hit s e.data e.text
    | none => .miss

/-! ## Definitions following the spec's words (for comparison with the code) -/

/-- Modelled from the spec (claim C3's wording): map a verdict to 100 for the
true family, 0 for the false family, and 50 for every other verdict — in
particular `partially_true` and `unverifiable` map to 50. -/
def specBucketOf (v : String) : ℤ :=
  if v = "true" ∨ v = "mostly_true" then 100
  else if v = "false" ∨ v = "mostly_false" then 0
  else 50

/-- Modelled from the spec (claim C3's wording): agreement holds exactly when
max − min ≤ 30 over the spec buckets of all of the tier's responses. -/
def specAgreement (rs : List ModelResponse) : Bool :=
  let scores := rs.map (fun r => specBucketOf r.verdict)
  !scores.isEmpty && decide (scores.foldl max 0 - scores.foldl min 100 ≤ 30)

/-- Modelled from the spec (claim C4's wording): tier confidence is the base
(0.92 on agreement, 0.75 otherwise) scaled by `min(1, responseCount/3)`. -/
def specBucketConfidence (agreement : Bool) (responseCount : ℕ) : ℚ :=
  (if agreement then 0.92 else 0.75) * min 1 ((responseCount : ℚ) / 3)

/-! ## Concrete environments and inputs used by witnesses and counterexamples -/

/-- Pattern oracle on which no regex group matches; concrete inputs below are
classified by the length guards alone. -/
def noPatterns : PatternOracle :=
  ⟨fun _ => false, fun _ => false, fun _ => false, fun _ => false⟩

/-- Environment in which every verifier call times out and both caches miss. -/
def allTimeoutEnv : Env :=
  ⟨fun _ _ => .timeout, noPatterns, fun _ => none, fun _ => none⟩

/-- Environment in which every verifier call answers `true` at confidence 90
and both caches miss. -/
def confidentEnv : Env :=
  ⟨fun _ _ => .ok "true" (some 90), noPatterns, fun _ => none, fun _ => none⟩

/-- Environment in which the first FAST model times out, the second fails
outright, the third answers, and both caches miss. -/
def mixedEnv : Env :=
  ⟨fun _ m =>
    if m = "GPT-4o-mini" then .timeout
    else if m = "Gemini-Flash" then .failure "parse error"
    else .ok "true" (some 90),
   noPatterns, fun _ => none, fun _ => none⟩

/-- A FAST bucket result with a null score, as produced when every FAST call
fails outright. -/
def c2fast : BucketScore := ⟨none, 0, false, []⟩

/-- A MID bucket result with score 50. -/
def c2mid : BucketScore := ⟨some 50, 0.5, true, []⟩

/-- FAST responses of the C3 counterexample: `partially_true` at 90 and
`unverifiable` at 50. -/
def c3responses : List ModelResponse :=
  [⟨true, "GPT-4o-mini", "partially_true", some 90, false⟩,
   ⟨true, "Gemini-Flash", "unverifiable", some 50, false⟩]

/-- Four agreeing responses, as a FULL bucket can produce. -/
def c4responses : List ModelResponse :=
  [⟨true, "GPT-4o-Full", "true", some 90, false⟩,
   ⟨true, "Claude-Sonnet", "true", some 90, false⟩,
   ⟨true, "Gemini-Full", "true", some 90, false⟩,
   ⟨true, "Perplexity-Full", "true", some 90, false⟩]

/-- Three agreeing responses (a full-strength FAST tier). -/
def c4threeResponses : List ModelResponse :=
  [⟨true, "GPT-4o-mini", "true", some 90, false⟩,
   ⟨true, "Gemini-Flash", "true", some 90, false⟩,
   ⟨true, "Perplexity-Lite", "true", some 90, false⟩]

/-- The quickClean non-idempotence input: filler removal glues the two
exclamation marks together only after repeated punctuation was collapsed. -/
def bangUmBang : String := "!um!"

/-- A placeholder cached payload for semantic cache entries. -/
def storedPayload : PipelineResult :=
  { mode := "fact_check", claim := "the stored claim", score := some 80,
    confidence := some 0.9, loraVerdict := some "TRUE", reason := none,
    usedModels := ⟨["GPT-4o-mini"], [], []⟩, skippedAll := false,
    skippedMid := true, skippedFull := true, source := some "fast",
    fromCache := false, cacheType := none, cacheSimilarity := none,
    breakdown := [] }

/-- Query embedding of the C6 witness. -/
noncomputable def c6query : List ℝ := [1, 0, 0, 0, 0, 0]

/-- Stored embedding of the C6 witness: its norm is exactly 100 and its dot
product with `c6query` is 93, so the cosine similarity is exactly 0.93. -/
noncomputable def c6stored : List ℝ := [93, 36, 7, 2, 1, 1]

/-- The single stored entry of the C6 witness. -/
noncomputable def c6entry : SemEntry := ⟨c6stored, storedPayload, 0, "the stored claim"⟩

/-- A FULL bucket result with score 10. -/
def c2full : BucketScore := ⟨some 10, 0.8, true, []⟩

/-- A high-scoring FAST bucket result. -/
def fastHigh : BucketScore := ⟨some 90, 0.92, true, []⟩

/-- Whether an outcome is an outright failure (dropped by `runBucket`). -/
def isFailureOutcome : VerifierOutcome → Bool
  | .failure _ => true
  | _ => false

/-! ## General lemmas about folded maxima and minima -/

theorem init_le_foldl_max (l : List ℤ) (a : ℤ) : a ≤ l.foldl max a := by
  induction l generalizing a with
  | nil => exact le_refl a
  | cons x xs ih => exact le_trans (le_max_left a x) (ih (max a x))

theorem mem_le_foldl_max (l : List ℤ) (a : ℤ) : ∀ x ∈ l, x ≤ l.foldl max a := by
  induction l generalizing a with
  | nil => intro x hx; cases hx
  | cons y ys ih =>
    intro x hx
    rcases List.mem_cons.mp hx with h | h
    · subst h
      exact le_trans (le_max_right a x) (init_le_foldl_max ys (max a x))
    · exact ih (max a y) x h

theorem foldl_max_mem (l : List ℤ) (a : ℤ) : l.foldl max a = a ∨ l.foldl max a ∈ l := by
  induction l generalizing a with
  | nil => exact Or.inl rfl
  | cons y ys ih =>
    have step : (y :: ys).foldl max a = ys.foldl max (max a y) := rfl
    rcases ih (max a y) with h | h
    · rcases max_choice a y with h2 | h2
      · exact Or.inl (by rw [step, h, h2])
      · exact Or.inr (by rw [step, h, h2]; exact List.mem_cons_self y ys)
    · exact Or.inr (by rw [step]; exact List.mem_cons_of_mem y h)

theorem foldl_min_le_init (l : List ℤ) (a : ℤ) : l.foldl min a ≤ a := by
  induction l generalizing a with
  | nil => exact le_refl a
  | cons x xs ih => exact le_trans (ih (min a x)) (min_le_left a x)

theorem foldl_min_le_mem (l : List ℤ) (a : ℤ) : ∀ x ∈ l, l.foldl min a ≤ x := by
  induction l generalizing a with
  | nil => intro x hx; cases hx
  | cons y ys ih =>
    intro x hx
    rcases List.mem_cons.mp hx with h | h
    · subst h
      exact le_trans (foldl_min_le_init ys (min a x)) (min_le_right a x)
    · exact ih (min a y) x h

theorem foldl_min_mem (l : List ℤ) (a : ℤ) : l.foldl min a = a ∨ l.foldl min a ∈ l := by
  induction l generalizing a with
  | nil => exact Or.inl rfl
  | cons y ys ih =>
    have step : (y :: ys).foldl min a = ys.foldl min (min a y) := rfl
    rcases ih (min a y) with h | h
    · rcases min_choice a y with h2 | h2
      · exact Or.inl (by rw [step, h, h2])
      · exact Or.inr (by rw [step, h, h2]; exact List.mem_cons_self y ys)
    · exact Or.inr (by rw [step]; exact List.mem_cons_of_mem y h)

/-! ## Lemmas about the consensus scorer -/

theorem bucketOf_nonneg (r : ModelResponse) : 0 ≤ bucketOf r := by
  unfold bucketOf
  split_ifs <;> norm_num

theorem bucketOf_le_100 (r : ModelResponse) : bucketOf r ≤ 100 := by
  unfold bucketOf
  split_ifs <;> norm_num

theorem computeBucketScore_agreement_eq (rs : List ModelResponse) :
    (computeBucketScore rs).agreement =
      (!(agreementScores rs).isEmpty &&
        decide ((agreementScores rs).foldl max 0 - (agreementScores rs).foldl min 100 ≤ 30)) := by
  by_cases h : rs.isEmpty
  · rw [List.isEmpty_iff.mp h]
    simp [computeBucketScore, agreementScores]
  · simp only [computeBucketScore, h]
    rfl

/-! ## Claim C3 -/

/-- C3 (counterexample): the claim maps `partially_true` and `unverifiable`
both to bucket 50 and so predicts agreement for the response pair
(`partially_true`@90, `unverifiable`@50); the code buckets any verdict
containing the substring `true` — including `partially_true` — as 100, so it
reports disagreement on that very pair. -/
theorem agreement_partially_true_counterexample :
    specAgreement c3responses = true ∧
    bucketOf ⟨true, "GPT-4o-mini", "partially_true", some 90, false⟩ = 100 ∧
    specBucketOf "partially_true" = 50 ∧
    (computeBucketScore c3responses).agreement = false := by
  with_unfolding_all decide

/-- C3 (amended): agreement is computed from the responses with a truthy
(non-empty) verdict and truthy (present, non-zero) confidence, bucketing a
verdict that contains `true` as 100 (so `partially_true` counts as the true
family), one that contains `false` as 0, and anything else as 50; the flag is
set if and only if that bucket list is non-empty and any two of its buckets
are within 30 points of each other. -/
theorem agreement_pairwise_iff (rs : List ModelResponse) :
    (computeBucketScore rs).agreement = true ↔
      (agreementScores rs ≠ [] ∧
        ∀ x ∈ agreementScores rs, ∀ y ∈ agreementScores rs, x - y ≤ 30) := by
  rw [computeBucketScore_agreement_eq rs]
  constructor
  · intro h
    rcases Bool.and_eq_true_iff.mp h with ⟨h1, h2⟩
    have hne : agreementScores rs ≠ [] := by
      intro he
      rw [he] at h1
      simp at h1
    refine ⟨hne, fun x hx y hy => ?_⟩
    have hd : (agreementScores rs).foldl max 0 - (agreementScores rs).foldl min 100 ≤ 30 :=
      of_decide_eq_true h2
    have hxa := mem_le_foldl_max (agreementScores rs) 0 x hx
    have hya := foldl_min_le_mem (agreementScores rs) 100 y hy
    omega
  · rintro ⟨hne, hpair⟩
    have hmem : ∀ z ∈ agreementScores rs, 0 ≤ z ∧ z ≤ 100 := by
      intro z hz
      rcases List.mem_map.mp hz with ⟨r, _, rfl⟩
      exact ⟨bucketOf_nonneg r, bucketOf_le_100 r⟩
    have hd : (agreementScores rs).foldl max 0 - (agreementScores rs).foldl min 100 ≤ 30 := by
      rcases foldl_max_mem (agreementScores rs) 0 with hM | hM <;>
        rcases foldl_min_mem (agreementScores rs) 100 with hm | hm
      · omega
      · have := (hmem _ hm).1
        omega
      · have := (hmem _ hM).2
        omega
      · exact hpair _ hM _ hm
    refine Bool.and_eq_true_iff.mpr ⟨?_, decide_eq_true hd⟩
    simp [hne]

/-- C3 (witness): on three agreeing `true` responses the amended
characterization yields agreement. -/
theorem agreement_pairwise_witness :
    agreementScores c4threeResponses ≠ [] ∧
    (computeBucketScore c4threeResponses).agreement = true :=
  ⟨by with_unfolding_all decide,
   (agreement_pairwise_iff c4threeResponses).mpr
     ⟨by with_unfolding_all decide, by with_unfolding_all decide⟩⟩

/-! ## Claim C4 -/

theorem computeBucketScore_confidence_eq (rs : List ModelResponse)
    (h : (computeBucketScore rs).score ≠ none) :
    (computeBucketScore rs).confidence =
      min 1 ((if (computeBucketScore rs).agreement then (0.92 : ℚ) else 0.75) *
        (rs.length / 3 : ℚ)) := by
  by_cases he : rs.isEmpty
  · rw [List.isEmpty_iff.mp he] at h
    simp [computeBucketScore] at h
  · have hrs : rs.isEmpty = false := Bool.not_eq_true _ |>.mp he
    simp only [computeBucketScore, hrs, Bool.false_eq_true, if_false] at h ⊢
    rw [if_pos h]

/-- C4 (counterexample): a four-response tier in agreement gets confidence
`min(1, 0.92·(4/3)) = 1` from the code, while the claim's formula
`0.92·min(1, 4/3)` yields 0.92 — the clamp sits outside the product, so the
confidence does grow past the base for tiers with more than 3 responses. -/
theorem confidence_min_placement_counterexample :
    (computeBucketScore c4responses).agreement = true ∧
    (computeBucketScore c4responses).confidence = 1 ∧
    specBucketConfidence true 4 = 0.92 ∧
    (computeBucketScore c4responses).confidence ≠
      specBucketConfidence (computeBucketScore c4responses).agreement c4responses.length := by
  with_unfolding_all decide

/-- C4 (amended): for a tier whose responses yield a non-null score, the
confidence is `min(1, base·(responseCount/3))` with base 0.92 on agreement
and 0.75 otherwise; it never exceeds 1.0 and penalizes tiers with at most 3
responses by the factor `responseCount/3`, but for 4 or more responses it
saturates at 1.0 (above the base) rather than staying at the base. -/
theorem bucket_confidence_formula (rs : List ModelResponse)
    (h : (computeBucketScore rs).score ≠ none) :
    (computeBucketScore rs).confidence =
      min 1 ((if (computeBucketScore rs).agreement then (0.92 : ℚ) else 0.75) *
        (rs.length / 3 : ℚ)) ∧
    (computeBucketScore rs).confidence ≤ 1 ∧
    (rs.length ≤ 3 →
      (computeBucketScore rs).confidence =
        (if (computeBucketScore rs).agreement then (0.92 : ℚ) else 0.75) *
          (rs.length / 3 : ℚ)) ∧
    (4 ≤ rs.length → (computeBucketScore rs).confidence = 1) := by
  have heq := computeBucketScore_confidence_eq rs h
  refine ⟨heq, ?_, ?_, ?_⟩
  · rw [heq]
    exact min_le_left _ _
  · intro hlen
    rw [heq]
    apply min_eq_right
    have h3 : ((rs.length : ℚ) / 3) ≤ 1 := by
      rw [div_le_one (by norm_num)]
      exact_mod_cast hlen
    have h0 : (0 : ℚ) ≤ (rs.length : ℚ) / 3 := by positivity
    split_ifs <;> nlinarith
  · intro hlen
    rw [heq]
    apply min_eq_left
    have h4 : (4 : ℚ) ≤ (rs.length : ℚ) := by exact_mod_cast hlen
    split_ifs <;> nlinarith

/-- C4 (witness): the amended formula applies to a concrete three-response
tier with a non-null score. -/
theorem bucket_confidence_witness :
    (computeBucketScore c4threeResponses).score ≠ none ∧
    (computeBucketScore c4threeResponses).confidence ≤ 1 :=
  ⟨by with_unfolding_all decide,
   (bucket_confidence_formula c4threeResponses (by with_unfolding_all decide)).2.1⟩

/-! ## Claim C9 -/

/-- C9: when every FAST verifier call times out, the three synthesized
unverifiable/confidence-25 responses give the FAST tier score 35 with
agreement true and confidence 0.92, the escalation gate skips MID and FULL,
and the request completes with final score 35 and verdict label FALSE. -/
theorem allTimeout_fast_confident_false :
    runBucket allTimeoutEnv.call "FAST" =
      [⟨true, "GPT-4o-mini", "unverifiable", some 25, true⟩,
       ⟨true, "Gemini-Flash", "unverifiable", some 25, true⟩,
       ⟨true, "Perplexity-Lite", "unverifiable", some 25, true⟩] ∧
    (computeBucketScore (runBucket allTimeoutEnv.call "FAST")).score = some 35 ∧
    (computeBucketScore (runBucket allTimeoutEnv.call "FAST")).agreement = true ∧
    (computeBucketScore (runBucket allTimeoutEnv.call "FAST")).confidence = 0.92 ∧
    shouldRunMidBucket (computeBucketScore (runBucket allTimeoutEnv.call "FAST")) = false ∧
    (ultraSpeedCheck allTimeoutEnv "the eiffel tower is in paris").result.skippedMid = true ∧
    (ultraSpeedCheck allTimeoutEnv "the eiffel tower is in paris").result.skippedFull = true ∧
    (ultraSpeedCheck allTimeoutEnv "the eiffel tower is in paris").trace.midRan = false ∧
    (ultraSpeedCheck allTimeoutEnv "the eiffel tower is in paris").trace.fullRan = false ∧
    (ultraSpeedCheck allTimeoutEnv "the eiffel tower is in paris").result.score = some 35 ∧
    (ultraSpeedCheck allTimeoutEnv "the eiffel tower is in paris").result.loraVerdict =
      some "FALSE" := by
  with_unfolding_all decide

/-! ## Claims C7 and C10: the personal short-circuit -/

theorem length_dropWhile_le_self (p : Char → Bool) (l : List Char) :
    (l.dropWhile p).length ≤ l.length := by
  induction l with
  | nil => simp
  | cons c cs ih =>
    rw [List.dropWhile_cons]
    split_ifs
    · exact le_trans ih (Nat.le_succ _)
    · exact le_refl _

theorem trimL_length_le (l : List Char) : (trimL l).length ≤ l.length := by
  unfold trimL
  have h1 := length_dropWhile_le_self isWsB l
  have h2 := length_dropWhile_le_self isWsB (l.dropWhile isWsB).reverse
  simp only [List.length_reverse] at h2 ⊢
  omega

/-- On an input shorter than 10 characters the filter never reaches the
pattern groups: it answers from the three leading guards alone. -/
theorem detectPersonalStatement_short (pat : PatternOracle) (t : String)
    (h : t.length < 10) :
    detectPersonalStatement pat t =
      if t = "" then ⟨true, "invalid input", 100⟩
      else if trimL (toLowerL t.data) = [] then ⟨true, "empty input", 100⟩
      else ⟨true, "too short to be a factual claim", 80⟩ := by
  unfold detectPersonalStatement
  by_cases ht : t = ""
  · simp [ht]
  · rw [if_neg ht, if_neg ht]
    by_cases h0 : trimL (toLowerL t.data) = []
    · simp [h0]
    · have hlen0 : (trimL (toLowerL t.data)).length ≠ 0 := by
        simpa [List.length_eq_zero] using h0
      have hlow : (toLowerL t.data).length = t.data.length := by
        simp [toLowerL]
      have hlt : (trimL (toLowerL t.data)).length < 10 := by
        have hle := trimL_length_le (toLowerL t.data)
        have hts : t.length = t.data.length := rfl
        omega
      simp [h0, hlen0, hlt]

/-- When the filter says personal, the pipeline returns the mode-personal
result immediately, with no cache lookup and no bucket run. -/
theorem ultraSpeedCheck_personal (env : Env) (t : String)
    (h : (detectPersonalStatement env.patterns t).isPersonal = true) :
    ultraSpeedCheck env t =
      ⟨{ mode := "personal", claim := t, score := none, confidence := none,
         loraVerdict := none,
         reason := some (detectPersonalStatement env.patterns t).reason,
         usedModels := ⟨[], [], []⟩, skippedAll := true, skippedMid := false,
         skippedFull := false, source := none, fromCache := false,
         cacheType := none, cacheSimilarity := none, breakdown := [] },
       ⟨false, false, false, false, false⟩⟩ := by
  simp [ultraSpeedCheck, h]

/-- C7: whenever the personal-statement filter classifies the input as
personal, the pipeline returns immediately with mode `personal` and a null
score, runs no verifier bucket, and consults neither the exact nor the
semantic cache (the trace records no operation at all). -/
theorem personal_short_circuit (env : Env) (t : String)
    (h : (detectPersonalStatement env.patterns t).isPersonal = true) :
    (ultraSpeedCheck env t).result.mode = "personal" ∧
    (ultraSpeedCheck env t).result.score = none ∧
    (ultraSpeedCheck env t).result.usedModels = ⟨[], [], []⟩ ∧
    (ultraSpeedCheck env t).trace = ⟨false, false, false, false, false⟩ := by
  rw [ultraSpeedCheck_personal env t h]
  exact ⟨rfl, rfl, rfl, rfl⟩

/-- C7 (witness): the two-character input is classified personal by the
length guard and short-circuits the pipeline. -/
theorem personal_short_circuit_witness :
    (detectPersonalStatement allTimeoutEnv.patterns "hi").isPersonal = true ∧
    (ultraSpeedCheck allTimeoutEnv "hi").result.mode = "personal" ∧
    (ultraSpeedCheck allTimeoutEnv "hi").result.score = none :=
  ⟨by with_unfolding_all decide,
   (personal_short_circuit allTimeoutEnv "hi" (by with_unfolding_all decide)).1,
   (personal_short_circuit allTimeoutEnv "hi" (by with_unfolding_all decide)).2.1⟩

/-- C10 (counterexample): on the empty string the JavaScript guard `!text`
fires first, so the reason is `invalid input` (confidence 100) — not the
`empty input` reason the claim names (that one is reserved for whitespace-only
inputs, whose trimmed length is 0), and not `too short to be a factual
claim`. -/
theorem empty_input_reason_counterexample :
    detectPersonalStatement noPatterns "" = ⟨true, "invalid input", 100⟩ ∧
    (detectPersonalStatement noPatterns "").reason ≠ "empty input" ∧
    (detectPersonalStatement noPatterns "").reason ≠ "too short to be a factual claim" := by
  with_unfolding_all decide

/-- C10 (amended): any input shorter than 10 characters is classified
personal without rejection or exception — the empty string as `invalid input`
(confidence 100), a whitespace-only input as `empty input` (confidence 100),
any other short input as `too short to be a factual claim` (confidence 80) —
and the pipeline returns a mode-personal result with a null score and zero
verifier or cache operations. -/
theorem short_input_personal (env : Env) (t : String) (h : t.length < 10) :
    (detectPersonalStatement env.patterns t).isPersonal = true ∧
    (ultraSpeedCheck env t).result.mode = "personal" ∧
    (ultraSpeedCheck env t).result.score = none ∧
    (ultraSpeedCheck env t).result.usedModels = ⟨[], [], []⟩ ∧
    (ultraSpeedCheck env t).trace = ⟨false, false, false, false, false⟩ ∧
    (t = "" →
      (detectPersonalStatement env.patterns t).reason = "invalid input" ∧
      (detectPersonalStatement env.patterns t).confidence = 100) ∧
    (t ≠ "" → trimL (toLowerL t.data) = [] →
      (detectPersonalStatement env.patterns t).reason = "empty input" ∧
      (detectPersonalStatement env.patterns t).confidence = 100) ∧
    (t ≠ "" → trimL (toLowerL t.data) ≠ [] →
      (detectPersonalStatement env.patterns t).reason = "too short to be a factual claim" ∧
      (detectPersonalStatement env.patterns t).confidence = 80) := by
  have hd := detectPersonalStatement_short env.patterns t h
  have hpers : (detectPersonalStatement env.patterns t).isPersonal = true := by
    rw [hd]
    split_ifs <;> rfl
  have hout := ultraSpeedCheck_personal env t hpers
  refine ⟨hpers, ?_, ?_, ?_, ?_, ?_, ?_, ?_⟩
  · rw [hout]
  · rw [hout]
  · rw [hout]
  · rw [hout]
  · intro ht
    rw [hd, if_pos ht]
    exact ⟨rfl, rfl⟩
  · intro ht h0
    rw [hd, if_neg ht, if_pos h0]
    exact ⟨rfl, rfl⟩
  · intro ht h0
    rw [hd, if_neg ht, if_neg h0]
    exact ⟨rfl, rfl⟩

/-- C10 (witness): a concrete three-character input passes through the
too-short guard and short-circuits the pipeline. -/
theorem short_input_personal_witness :
    ("hi!" : String).length < 10 ∧
    (ultraSpeedCheck allTimeoutEnv "hi!").result.mode = "personal" ∧
    (ultraSpeedCheck allTimeoutEnv "hi!").result.score = none :=
  ⟨by with_unfolding_all decide,
   (short_input_personal allTimeoutEnv "hi!" (by with_unfolding_all decide)).2.1,
   (short_input_personal allTimeoutEnv "hi!" (by with_unfolding_all decide)).2.2.1⟩

/-! ## Claim C1: escalation monotonicity -/

theorem runPhases_skip (call : String → String → VerifierOutcome)
    (h : shouldRunMidBucket (computeBucketScore (runBucket call "FAST")) = false) :
    runPhases call =
      { fastResult := computeBucketScore (runBucket call "FAST"), midResult := none,
        fullResult := none,
        merged := mergeResults (computeBucketScore (runBucket call "FAST")) none none,
        usedModels := ⟨(runBucket call "FAST").map (fun r => r.model), [], []⟩,
        skippedMid := true, skippedFull := true, midRan := false, fullRan := false } := by
  simp [runPhases, h]

theorem runPhases_full_implies_mid (call : String → String → VerifierOutcome) :
    (runPhases call).fullRan = true → (runPhases call).midRan = true := by
  unfold runPhases
  dsimp only
  split_ifs <;> intro h <;> first | rfl | simp at h

theorem ultraSpeedCheck_exactHit (env : Env) (t : String) (d : PipelineResult)
    (hp : (detectPersonalStatement env.patterns t).isPersonal = false)
    (he : env.exactLookup (quickClean t) = some d) :
    ultraSpeedCheck env t =
      ⟨{ d with fromCache := true, cacheType := some "exact" },
       ⟨true, false, false, false, false⟩⟩ := by
  simp [ultraSpeedCheck, hp, he]

theorem ultraSpeedCheck_semanticHit (env : Env) (t : String) (d : PipelineResult)
    (sim : ℚ) (hp : (detectPersonalStatement env.patterns t).isPersonal = false)
    (he : env.exactLookup (quickClean t) = none)
    (hs : env.semanticLookup (quickClean t) = some (d, sim)) :
    ultraSpeedCheck env t =
      ⟨{ d with
          fromCache := true
          cacheType := some "semantic"
          cacheSimilarity := some sim },
       ⟨true, true, false, false, false⟩⟩ := by
  simp [ultraSpeedCheck, hp, he, hs]

theorem ultraSpeedCheck_phases (env : Env) (t : String)
    (hp : (detectPersonalStatement env.patterns t).isPersonal = false)
    (he : env.exactLookup (quickClean t) = none)
    (hs : env.semanticLookup (quickClean t) = none) :
    ultraSpeedCheck env t =
      ⟨{ mode := "fact_check", claim := t, score := (runPhases env.call).merged.score,
         confidence := some (runPhases env.call).merged.confidence,
         loraVerdict := some (getVerdictFromScore (runPhases env.call).merged.score),
         reason := none, usedModels := (runPhases env.call).usedModels,
         skippedAll := false, skippedMid := (runPhases env.call).skippedMid,
         skippedFull := (runPhases env.call).skippedFull,
         source := some (runPhases env.call).merged.source, fromCache := false,
         cacheType := none, cacheSimilarity := none,
         breakdown := (runPhases env.call).merged.breakdown },
       ⟨true, true, true, (runPhases env.call).midRan, (runPhases env.call).fullRan⟩⟩ := by
  simp [ultraSpeedCheck, hp, he, hs]

/-- The pipeline reaches the verification phases (any of the three run flags)
only when the input is not personal and both caches missed. -/
theorem traceRan_cases (env : Env) (t : String) :
    ((ultraSpeedCheck env t).trace.fastRan = true ∨
      (ultraSpeedCheck env t).trace.midRan = true ∨
      (ultraSpeedCheck env t).trace.fullRan = true) →
      (detectPersonalStatement env.patterns t).isPersonal = false ∧
      env.exactLookup (quickClean t) = none ∧
      env.semanticLookup (quickClean t) = none := by
  intro h
  by_cases hp2 : (detectPersonalStatement env.patterns t).isPersonal = true
  · rw [ultraSpeedCheck_personal env t hp2] at h
    simp at h
  · have hp : (detectPersonalStatement env.patterns t).isPersonal = false :=
      Bool.not_eq_true _ |>.mp hp2
    cases hE : env.exactLookup (quickClean t) with
    | some d =>
      rw [ultraSpeedCheck_exactHit env t d hp hE] at h
      simp at h
    | none =>
      cases hS : env.semanticLookup (quickClean t) with
      | some p =>
        obtain ⟨d, sim⟩ := p
        rw [ultraSpeedCheck_semanticHit env t d sim hp hE hS] at h
        simp at h
      | none => exact ⟨hp, rfl, rfl⟩

/-- C1: for every request that reaches the FAST tier, a FAST result with
confidence at least 0.88 and agreement keeps MID and FULL from being invoked
(their usedModels lists stay empty and their run flags stay off); and for
every request whatsoever, the FULL tier runs only if the MID tier ran. -/
theorem escalation_monotonicity (env : Env) (t : String) :
    ((ultraSpeedCheck env t).trace.fastRan = true →
      (computeBucketScore (runBucket env.call "FAST")).confidence ≥ 0.88 →
      (computeBucketScore (runBucket env.call "FAST")).agreement = true →
      (ultraSpeedCheck env t).result.usedModels.mid = [] ∧
      (ultraSpeedCheck env t).result.usedModels.full = [] ∧
      (ultraSpeedCheck env t).trace.midRan = false ∧
      (ultraSpeedCheck env t).trace.fullRan = false) ∧
    ((ultraSpeedCheck env t).trace.fullRan = true →
      (ultraSpeedCheck env t).trace.midRan = true) := by
  constructor
  · intro hfast hconf hagr
    obtain ⟨hp, he, hs⟩ := traceRan_cases env t (Or.inl hfast)
    have hmid : shouldRunMidBucket (computeBucketScore (runBucket env.call "FAST")) = false := by
      unfold shouldRunMidBucket
      rw [hagr]
      simp only [Bool.not_true, Bool.or_false]
      exact decide_eq_false (not_lt.mpr hconf)
    rw [ultraSpeedCheck_phases env t hp he hs]
    rw [runPhases_skip env.call hmid]
    exact ⟨rfl, rfl, rfl, rfl⟩
  · intro hfull
    obtain ⟨hp, he, hs⟩ := traceRan_cases env t (Or.inr (Or.inr hfull))
    rw [ultraSpeedCheck_phases env t hp he hs] at hfull ⊢
    exact runPhases_full_implies_mid env.call hfull

/-- C1 (witness): with three unanimous high-confidence FAST answers the gate
skips MID and FULL on a concrete request. -/
theorem escalation_monotonicity_witness :
    (ultraSpeedCheck confidentEnv "the eiffel tower is in paris").trace.fastRan = true ∧
    (computeBucketScore (runBucket confidentEnv.call "FAST")).confidence ≥ 0.88 ∧
    (computeBucketScore (runBucket confidentEnv.call "FAST")).agreement = true ∧
    (ultraSpeedCheck confidentEnv "the eiffel tower is in paris").result.usedModels.mid = [] ∧
    (ultraSpeedCheck confidentEnv "the eiffel tower is in paris").trace.fullRan = false :=
  ⟨by with_unfolding_all decide, by with_unfolding_all decide, by with_unfolding_all decide,
   ((escalation_monotonicity confidentEnv "the eiffel tower is in paris").1
     (by with_unfolding_all decide) (by with_unfolding_all decide)
     (by with_unfolding_all decide)).1,
   ((escalation_monotonicity confidentEnv "the eiffel tower is in paris").1
     (by with_unfolding_all decide) (by with_unfolding_all decide)
     (by with_unfolding_all decide)).2.2.2⟩

/-! ## Claim C2: merge priority -/

/-- C2 (counterexample): with a null FAST score and a MID score of 50 (FULL
absent or scoreless), the merge does not return the FAST result unchanged as
the claim's final clause predicts — it blends with 0 standing in for FAST,
yielding 35 from the MID branch. -/
theorem merge_fast_null_counterexample :
    c2fast.score = none ∧
    (mergeResults c2fast (some c2mid) none).score = some 35 ∧
    (mergeResults c2fast (some c2mid) none).score ≠ c2fast.score ∧
    (mergeResults c2fast (some c2mid) none).source = "mid" := by
  with_unfolding_all decide

/-- C2 (amended): a non-null FULL score is final outright, confidence
included, with no adjustment for any deviation from FAST; otherwise a
non-null MID score gives `round(0.3·(fast.score, or 0 when null) +
0.7·mid.score)` with the matching 0.3/0.7 confidence blend — also when FAST's
score is null; the FAST result is returned unchanged only when neither FULL
nor MID produced a score. -/
theorem mergeResults_priority (fa : BucketScore) (mi fu : Option BucketScore) :
    (∀ fuB s, fu = some fuB → fuB.score = some s →
      (mergeResults fa mi fu).score = some s ∧
      (mergeResults fa mi fu).confidence = fuB.confidence ∧
      (mergeResults fa mi fu).source = "full") ∧
    ((fu = none ∨ ∃ fuB, fu = some fuB ∧ fuB.score = none) →
      ∀ miB ms, mi = some miB → miB.score = some ms →
      (mergeResults fa mi fu).score =
        some (jsRound (((fa.score.getD 0 : ℤ) : ℚ) * 0.3 + (ms : ℚ) * 0.7)) ∧
      (mergeResults fa mi fu).confidence = fa.confidence * 0.3 + miB.confidence * 0.7 ∧
      (mergeResults fa mi fu).source = "mid") ∧
    ((fu = none ∨ ∃ fuB, fu = some fuB ∧ fuB.score = none) →
      (mi = none ∨ ∃ miB, mi = some miB ∧ miB.score = none) →
      mergeResults fa mi fu = ⟨fa.score, fa.confidence, fa.breakdown, "fast"⟩) := by
  refine ⟨?_, ?_, ?_⟩
  · rintro fuB s rfl hs
    simp [mergeResults, hs]
  · rintro (rfl | ⟨fuB, rfl, hfu⟩) miB ms rfl hms
    · simp [mergeResults, hms]
    · simp [mergeResults, hfu, hms]
  · rintro (rfl | ⟨fuB, rfl, hfu⟩) (rfl | ⟨miB, rfl, hmi⟩)
    · simp [mergeResults]
    · simp [mergeResults, hmi]
    · simp [mergeResults, hfu]
    · simp [mergeResults, hfu, hmi]

/-- C2 (witness): the three merge branches at concrete bucket results — a
contradicting FULL score 10 beats FAST's 90 outright; without FULL the MID
blend gives `round(0.3·90 + 0.7·50) = 62`; with neither, FAST's 90 stands. -/
theorem mergeResults_priority_witness :
    (mergeResults fastHigh (some c2mid) (some c2full)).score = some 10 ∧
    (mergeResults fastHigh (some c2mid) none).score = some 62 ∧
    (mergeResults fastHigh none none).score = some 90 := by
  refine ⟨?_, ?_, ?_⟩
  · exact ((mergeResults_priority fastHigh (some c2mid) (some c2full)).1 c2full 10 rfl
      (by with_unfolding_all decide)).1
  · exact (((mergeResults_priority fastHigh (some c2mid) none).2.1 (Or.inl rfl) c2mid 50 rfl
      (by with_unfolding_all decide)).1).trans (by with_unfolding_all decide)
  · rw [(mergeResults_priority fastHigh none none).2.2 (Or.inl rfl) (Or.inl rfl)]
    with_unfolding_all decide

/-! ## Claim C5: timeout degradation, outright failures dropped -/

theorem runWithTimeout_model (n : String) (out : VerifierOutcome) :
    (runWithTimeout n out).model = n := by
  cases out <;> rfl

theorem runWithTimeout_success (n : String) (out : VerifierOutcome) :
    (runWithTimeout n out).success = !(isFailureOutcome out) := by
  cases out <;> rfl

/-- C5: within any tier, a timed-out verifier call still contributes the
synthesized `{verdict: unverifiable, confidence: 25, timedOut: true}` response
to the tier's response set (and `runWithTimeout` is total, so no exception
propagates), whereas a call that fails outright is excluded — the tier keeps
exactly one response per model whose call did not fail. -/
theorem timeout_degradation (call : String → String → VerifierOutcome)
    (b m : String) (hm : m ∈ (MODEL_BUCKETS b).models.map (fun mo => mo.name)) :
    (call b m = .timeout →
      (⟨true, m, "unverifiable", some 25, true⟩ : ModelResponse) ∈ runBucket call b) ∧
    (∀ msg, call b m = .failure msg → ∀ r ∈ runBucket call b, r.model ≠ m) ∧
    (runBucket call b).length =
      ((MODEL_BUCKETS b).models.filter
        (fun mo => !(isFailureOutcome (call b mo.name)))).length := by
  refine ⟨?_, ?_, ?_⟩
  · obtain ⟨mo, hmo, hname⟩ := List.mem_map.mp hm
    intro ht
    apply List.mem_filter.mpr
    constructor
    · have hmem := List.mem_map_of_mem
        (fun mo : ModelSpec => runWithTimeout mo.name (call b mo.name)) hmo
      dsimp only at hmem
      rw [hname, ht] at hmem
      exact hmem
    · rfl
  · intro msg hf r hr hrm
    rcases List.mem_filter.mp hr with ⟨hrmap, hrsucc⟩
    obtain ⟨mo, _, rfl⟩ := List.mem_map.mp hrmap
    rw [runWithTimeout_model] at hrm
    rw [runWithTimeout_success, hrm, hf] at hrsucc
    simp [isFailureOutcome] at hrsucc
  · unfold runBucket
    rw [List.filter_map]
    rw [List.length_map]
    congr 1
    apply List.filter_congr
    intro mo _
    simp [Function.comp, runWithTimeout_success]

/-- C5 (witness): in a concrete FAST tier the timed-out first model
contributes the synthesized degraded response while the outright-failing
second model is absent from the response set. -/
theorem timeout_degradation_witness :
    mixedEnv.call "FAST" "GPT-4o-mini" = .timeout ∧
    (⟨true, "GPT-4o-mini", "unverifiable", some 25, true⟩ : ModelResponse) ∈
      runBucket mixedEnv.call "FAST" ∧
    (∀ r ∈ runBucket mixedEnv.call "FAST", r.model ≠ "Gemini-Flash") ∧
    (runBucket mixedEnv.call "FAST").length = 2 := by
  refine ⟨by with_unfolding_all decide, ?_, ?_, by with_unfolding_all decide⟩
  · exact (timeout_degradation mixedEnv.call "FAST" "GPT-4o-mini"
      (by with_unfolding_all decide)).1 (by with_unfolding_all decide)
  · exact (timeout_degradation mixedEnv.call "FAST" "Gemini-Flash"
      (by with_unfolding_all decide)).2.1 "parse error" (by with_unfolding_all decide)

/-! ## Claim C6: semantic threshold boundary -/

theorem semanticScanStep_sound (q : List ℝ) (l : List SemEntry) :
    ∀ acc : Option (ℝ × SemEntry), ∀ s e,
      l.foldl (semanticScanStep q) acc = some (s, e) →
      acc = some (s, e) ∨
        (e ∈ l ∧ cosineSimilarity (some q) (some e.embedding) = s ∧ s ≥ 0.93) := by
  induction l with
  | nil => intro acc s e h; exact Or.inl h
  | cons x xs ih =>
    intro acc s e h
    rcases ih (semanticScanStep q acc x) s e h with h1 | h1
    · unfold semanticScanStep at h1
      dsimp only at h1
      split_ifs at h1 with hc
      · injection h1 with h2
        obtain ⟨hs, he⟩ := Prod.mk.injEq _ _ _ _ |>.mp h2
        subst hs
        subst he
        exact Or.inr ⟨List.mem_cons_self _ _, rfl, hc.2⟩
      · exact Or.inl h1
    · exact Or.inr ⟨List.mem_cons_of_mem x h1.1, h1.2⟩

theorem semanticScanStep_keeps_some (q : List ℝ) (l : List SemEntry) :
    ∀ acc : Option (ℝ × SemEntry), acc.isSome →
      (l.foldl (semanticScanStep q) acc).isSome := by
  induction l with
  | nil => intro acc hacc; exact hacc
  | cons x xs ih =>
    intro acc hacc
    rw [List.foldl_cons]
    apply ih
    unfold semanticScanStep
    dsimp only
    split_ifs
    · rfl
    · exact hacc

theorem semanticScanStep_found (q : List ℝ) (l : List SemEntry) :
    ∀ acc : Option (ℝ × SemEntry), ∀ e ∈ l,
      cosineSimilarity (some q) (some e.embedding) ≥ 0.93 →
      (l.foldl (semanticScanStep q) acc).isSome := by
  induction l with
  | nil => intro acc e he; cases he
  | cons x xs ih =>
    intro acc e he hsim
    rcases List.mem_cons.mp he with rfl | hmem
    · rw [List.foldl_cons]
      apply semanticScanStep_keeps_some
      unfold semanticScanStep
      dsimp only
      split_ifs with hc
      · rfl
      · cases acc with
        | none =>
          exfalso
          apply hc
          refine ⟨lt_of_lt_of_le (by norm_num) hsim, hsim⟩
        | some p => rfl
    · rw [List.foldl_cons]
      exact ih (semanticScanStep q acc x) e hmem hsim

/-- C6: for a semantic lookup with a computed query embedding, a live stored
entry whose cosine similarity to the query is exactly 0.93 guarantees a hit;
every hit's similarity is at least 0.93 and is the cosine similarity of some
live entry carrying the returned payload (so an entry strictly below 0.93 is
never returned); and the cosine similarity of an undefined vector, of
mismatched-length vectors, or of a zero-norm vector is 0, which can never
reach the threshold. -/
theorem semantic_threshold_boundary (store : List SemEntry) (now ttl : ℤ)
    (q : List ℝ) :
    ((∃ e ∈ liveEntries store now ttl,
        cosineSimilarity (some q) (some e.embedding) = 0.93) →
      ∃ s d o, checkSemanticCache store now ttl (some q) = .hit s d o) ∧
    (∀ s d o, checkSemanticCache store now ttl (some q) = .hit s d o →
      s ≥ 0.93 ∧ ∃ e ∈ liveEntries store now ttl,
        cosineSimilarity (some q) (some e.embedding) = s ∧ e.data = d ∧ e.text = o) ∧
    (∀ b, cosineSimilarity none b = 0) ∧
    (∀ a, cosineSimilarity a none = 0) ∧
    (∀ a b : List ℝ, a.length ≠ b.length → cosineSimilarity (some a) (some b) = 0) ∧
    (∀ a b : List ℝ, Real.sqrt (sumSq a) = 0 ∨ Real.sqrt (sumSq b) = 0 →
      cosineSimilarity (some a) (some b) = 0) := by
  refine ⟨?_, ?_, ?_, ?_, ?_, ?_⟩
  · rintro ⟨e, he, hsim⟩
    have hs := semanticScanStep_found q (liveEntries store now ttl) none e he (ge_of_eq hsim)
    unfold checkSemanticCache
    dsimp only
    cases hfold : (liveEntries store now ttl).foldl (semanticScanStep q) none with
    | none => rw [hfold] at hs; cases hs
    | some p =>
      obtain ⟨s, e'⟩ := p
      exact ⟨s, e'.data, e'.text, rfl⟩
  · intro s d o h
    unfold checkSemanticCache at h
    dsimp only at h
    cases hfold : (liveEntries store now ttl).foldl (semanticScanStep q) none with
    | none =>
      rw [hfold] at h
      exact SemLookup.noConfusion h
    | some p =>
      obtain ⟨s', e'⟩ := p
      rw [hfold] at h
      have h' : SemLookup.hit s' e'.data e'.text = SemLookup.hit s d o := h
      injection h' with h1 h2 h3
      subst h1
      subst h2
      subst h3
      rcases semanticScanStep_sound q (liveEntries store now ttl) none s' e' hfold with
        habs | ⟨hmem, hcos, hge⟩
      · exact Option.noConfusion habs
      · exact ⟨hge, e', hmem, hcos, rfl, rfl⟩
  · intro b; cases b <;> rfl
  · intro a; cases a <;> rfl
  · intro a b h
    unfold cosineSimilarity
    dsimp only
    rw [if_neg h]
  · intro a b h
    unfold cosineSimilarity
    dsimp only
    by_cases hlen : a.length = b.length
    · rw [if_pos hlen, if_pos h]
    · rw [if_neg hlen]

/-- C6 (witness): the stored six-dimensional embedding has norm exactly 100
and dot product 93 with the unit query, so its cosine similarity is exactly
0.93 — and the lookup over the single-entry store is a hit. -/
theorem semantic_threshold_boundary_witness :
    cosineSimilarity (some c6query) (some c6stored) = 0.93 ∧
    (∃ s d o, checkSemanticCache [c6entry] 0 1 (some c6query) = .hit s d o) := by
  have hsqrt : Real.sqrt 10000 = 100 := by
    rw [show (10000 : ℝ) = 100 ^ 2 by norm_num]
    exact Real.sqrt_sq (by norm_num)
  have h1 : sumSq c6query = 1 := by norm_num [sumSq, c6query]
  have h2 : sumSq c6stored = 10000 := by norm_num [sumSq, c6stored]
  have h3 : dotL c6query c6stored = 93 := by norm_num [dotL, c6query, c6stored]
  have h4 : c6query.length = c6stored.length := by norm_num [c6query, c6stored]
  have hcos : cosineSimilarity (some c6query) (some c6stored) = 0.93 := by
    unfold cosineSimilarity
    dsimp only
    rw [if_pos h4, h1, h2, h3, Real.sqrt_one, hsqrt]
    rw [if_neg (by norm_num)]
    norm_num
  refine ⟨hcos, (semantic_threshold_boundary [c6entry] 0 1 c6query).1 ⟨c6entry, ?_, ?_⟩⟩
  · unfold liveEntries c6entry
    simp
  · exact hcos

/-! ## Claim C8: idempotence of the cache-key normalization -/

theorem char_toNat_ofNat_valid (n : Nat) (h : n.isValidChar) :
    (Char.ofNat n).toNat = n := by
  simp [Char.ofNat, h, Char.ofNatAux, Char.toNat, UInt32.toNat, BitVec.toNat_ofNatLt]

theorem char_eq_iff_toNat (a b : Char) : a = b ↔ a.toNat = b.toNat :=
  ⟨fun h => h ▸ rfl, fun h => Char.ext (UInt32.toNat.inj h)⟩

theorem jsLowerChar_toNat_of_upper (c : Char) (h : 65 ≤ c.toNat ∧ c.toNat ≤ 90) :
    (jsLowerChar c).toNat = c.toNat + 32 := by
  unfold jsLowerChar
  rw [if_pos h]
  exact char_toNat_ofNat_valid _ (Or.inl (by omega))

theorem jsLowerChar_eq_self (d : Char) (h : ¬(65 ≤ d.toNat ∧ d.toNat ≤ 90)) :
    jsLowerChar d = d := by
  unfold jsLowerChar
  rw [if_neg h]

theorem jsLowerChar_idem (c : Char) : jsLowerChar (jsLowerChar c) = jsLowerChar c := by
  by_cases h : 65 ≤ c.toNat ∧ c.toNat ≤ 90
  · exact jsLowerChar_eq_self _ (by have := jsLowerChar_toNat_of_upper c h; omega)
  · rw [jsLowerChar_eq_self c h]
    exact jsLowerChar_eq_self c h

theorem isWsB_toNat (c : Char) :
    isWsB c = (decide (c.toNat = 32) || decide (c.toNat = 9) ||
      decide (c.toNat = 10) || decide (c.toNat = 13)) := by
  unfold isWsB
  rw [show (c = ' ' : Bool) = decide (c.toNat = 32) from
        decide_eq_decide.mpr (char_eq_iff_toNat c ' '),
      show (c = '\t' : Bool) = decide (c.toNat = 9) from
        decide_eq_decide.mpr (char_eq_iff_toNat c '\t'),
      show (c = '\n' : Bool) = decide (c.toNat = 10) from
        decide_eq_decide.mpr (char_eq_iff_toNat c '\n'),
      show (c = '\r' : Bool) = decide (c.toNat = 13) from
        decide_eq_decide.mpr (char_eq_iff_toNat c '\r')]

theorem isWsB_jsLowerChar (c : Char) : isWsB (jsLowerChar c) = isWsB c := by
  by_cases h : 65 ≤ c.toNat ∧ c.toNat ≤ 90
  · have ht := jsLowerChar_toNat_of_upper c h
    rw [isWsB_toNat, isWsB_toNat c, ht]
    have hl : (decide (c.toNat + 32 = 32) || decide (c.toNat + 32 = 9) ||
        decide (c.toNat + 32 = 10) || decide (c.toNat + 32 = 13)) = false := by
      simp only [Bool.or_eq_false_iff, decide_eq_false_iff_not]
      omega
    have hr : (decide (c.toNat = 32) || decide (c.toNat = 9) ||
        decide (c.toNat = 10) || decide (c.toNat = 13)) = false := by
      simp only [Bool.or_eq_false_iff, decide_eq_false_iff_not]
      omega
    rw [hl, hr]
  · rw [jsLowerChar_eq_self c h]

theorem toLowerL_idem (l : List Char) : toLowerL (toLowerL l) = toLowerL l := by
  induction l with
  | nil => rfl
  | cons c cs ih =>
    simp only [toLowerL, List.map_cons] at ih ⊢
    rw [jsLowerChar_idem, ih]

theorem dropWhile_map_lower (l : List Char) :
    (toLowerL l).dropWhile isWsB = toLowerL (l.dropWhile isWsB) := by
  induction l with
  | nil => rfl
  | cons c cs ih =>
    simp only [toLowerL, List.map_cons, List.dropWhile_cons, isWsB_jsLowerChar]
    by_cases h : isWsB c
    · simp only [h, if_true]
      exact ih
    · simp only [h]
      rfl

theorem reverse_toLowerL (l : List Char) :
    (toLowerL l).reverse = toLowerL l.reverse := by
  simp [toLowerL, List.map_reverse]

theorem trimL_map_lower (l : List Char) :
    trimL (toLowerL l) = toLowerL (trimL l) := by
  unfold trimL
  rw [dropWhile_map_lower, reverse_toLowerL, dropWhile_map_lower, reverse_toLowerL]

theorem collapseWsAux_map_lower (l : List Char) :
    ∀ b, toLowerL (collapseWsAux b l) = collapseWsAux b (toLowerL l) := by
  induction l with
  | nil => intro b; rfl
  | cons c cs ih =>
    intro b
    simp only [toLowerL, List.map_cons] at ih ⊢
    rw [show collapseWsAux b (jsLowerChar c :: List.map jsLowerChar cs) =
          if isWsB (jsLowerChar c) then
            (if b then collapseWsAux true (List.map jsLowerChar cs)
             else ' ' :: collapseWsAux true (List.map jsLowerChar cs))
          else jsLowerChar c :: collapseWsAux false (List.map jsLowerChar cs) from rfl,
        show collapseWsAux b (c :: cs) =
          if isWsB c then
            (if b then collapseWsAux true cs else ' ' :: collapseWsAux true cs)
          else c :: collapseWsAux false cs from rfl,
        isWsB_jsLowerChar]
    by_cases h : isWsB c
    · rw [if_pos h, if_pos h]
      by_cases hb : b
      · rw [if_pos hb, if_pos hb]
        exact ih true
      · rw [if_neg hb, if_neg hb]
        simp only [List.map_cons]
        rw [show jsLowerChar ' ' = ' ' by decide]
        rw [ih true]
    · rw [if_neg h, if_neg h]
      simp only [List.map_cons]
      rw [ih false]

theorem dropWhile_eq_self_of_head (p : Char → Bool) (l : List Char)
    (h : ∀ c, l.head? = some c → p c = false) : l.dropWhile p = l := by
  cases l with
  | nil => rfl
  | cons c cs =>
    rw [List.dropWhile_cons, if_neg]
    simp [h c rfl]

theorem head_dropWhile_false (p : Char → Bool) (l : List Char) :
    ∀ c, (l.dropWhile p).head? = some c → p c = false := by
  induction l with
  | nil => intro c h; cases h
  | cons x xs ih =>
    intro c h
    rw [List.dropWhile_cons] at h
    split_ifs at h with hx
    · exact ih c h
    · rw [List.head?_cons] at h
      injection h with h2
      subst h2
      simpa using hx

theorem getLast?_dropWhile (p : Char → Bool) (l : List Char)
    (h : l.dropWhile p ≠ []) : (l.dropWhile p).getLast? = l.getLast? := by
  induction l with
  | nil => simp at h
  | cons x xs ih =>
    rw [List.dropWhile_cons] at h ⊢
    split_ifs at h ⊢ with hx
    · cases hxs : xs with
      | nil =>
        rw [hxs] at h
        simp at h
      | cons y ys =>
        rw [hxs] at ih h
        rw [ih h, List.getLast?_cons_cons]
    · rfl

theorem trimL_head_false (l : List Char) :
    ∀ c, (trimL l).head? = some c → isWsB c = false := by
  intro c h
  unfold trimL at h
  rw [List.head?_reverse] at h
  by_cases hd : (l.dropWhile isWsB).reverse.dropWhile isWsB = []
  · rw [hd] at h
    cases h
  · rw [getLast?_dropWhile _ _ hd, List.getLast?_reverse] at h
    exact head_dropWhile_false isWsB l c h

theorem trimL_getLast_false (l : List Char) :
    ∀ c, (trimL l).getLast? = some c → isWsB c = false := by
  intro c h
  unfold trimL at h
  rw [List.getLast?_reverse] at h
  exact head_dropWhile_false isWsB _ c h

theorem trimL_eq_self (l : List Char)
    (h1 : ∀ c, l.head? = some c → isWsB c = false)
    (h2 : ∀ c, l.getLast? = some c → isWsB c = false) : trimL l = l := by
  unfold trimL
  rw [dropWhile_eq_self_of_head isWsB l h1]
  rw [dropWhile_eq_self_of_head isWsB l.reverse
    (fun c hc => h2 c (by rwa [List.head?_reverse] at hc))]
  exact List.reverse_reverse l

theorem collapseWsAux_cons (b : Bool) (c : Char) (cs : List Char) :
    collapseWsAux b (c :: cs) =
      if isWsB c then
        (if b then collapseWsAux true cs else ' ' :: collapseWsAux true cs)
      else c :: collapseWsAux false cs := rfl

theorem collapseWsAux_cons_ws_true (c : Char) (cs : List Char) (h : isWsB c = true) :
    collapseWsAux true (c :: cs) = collapseWsAux true cs := by
  simp [collapseWsAux_cons, h]

theorem collapseWsAux_cons_ws_false (c : Char) (cs : List Char) (h : isWsB c = true) :
    collapseWsAux false (c :: cs) = ' ' :: collapseWsAux true cs := by
  simp [collapseWsAux_cons, h]

theorem collapseWsAux_cons_nonws (b : Bool) (c : Char) (cs : List Char)
    (h : isWsB c = false) :
    collapseWsAux b (c :: cs) = c :: collapseWsAux false cs := by
  simp [collapseWsAux_cons, h]

theorem collapseWsAux_ne_nil_of_false (c : Char) (cs : List Char) :
    collapseWsAux false (c :: cs) ≠ [] := by
  by_cases h : isWsB c
  · rw [collapseWsAux_cons_ws_false c cs h]
    simp
  · rw [collapseWsAux_cons_nonws false c cs (Bool.not_eq_true _ |>.mp h)]
    simp

theorem collapseWsAux_all_ws (l : List Char) :
    ∀ b, collapseWsAux b l = [] → ∀ c ∈ l, isWsB c = true := by
  induction l with
  | nil => intro b _ c hc; cases hc
  | cons x xs ih =>
    intro b h c hc
    by_cases hx : isWsB x
    · cases b with
      | true =>
        rw [collapseWsAux_cons_ws_true x xs hx] at h
        rcases List.mem_cons.mp hc with rfl | hm
        · exact hx
        · exact ih true h c hm
      | false =>
        rw [collapseWsAux_cons_ws_false x xs hx] at h
        cases h
    · rw [collapseWsAux_cons_nonws b x xs (Bool.not_eq_true _ |>.mp hx)] at h
      cases h

theorem collapseWsAux_getLast_false (l : List Char) :
    ∀ b, (∀ c, l.getLast? = some c → isWsB c = false) →
      ∀ c, (collapseWsAux b l).getLast? = some c → isWsB c = false := by
  induction l with
  | nil => intro b _ c hc; cases hc
  | cons x xs ih =>
    intro b hl c hc
    cases hxs : xs with
    | nil =>
      rw [hxs] at hl hc
      have hx : isWsB x = false := hl x (by simp)
      rw [collapseWsAux_cons_nonws b x [] hx] at hc
      rw [show collapseWsAux false ([] : List Char) = [] from rfl] at hc
      simp at hc
      rwa [← hc]
    | cons y ys =>
      rw [hxs] at hl ih hc
      have hl2 : ∀ d, (y :: ys).getLast? = some d → isWsB d = false := by
        intro d hd
        apply hl
        rw [List.getLast?_cons_cons]
        exact hd
      by_cases hx : isWsB x
      · cases b with
        | true =>
          rw [collapseWsAux_cons_ws_true x (y :: ys) hx] at hc
          exact ih true hl2 c hc
        | false =>
          rw [collapseWsAux_cons_ws_false x (y :: ys) hx] at hc
          have hne : collapseWsAux true (y :: ys) ≠ [] := by
            intro he
            obtain ⟨d, hd⟩ := Option.isSome_iff_exists.mp
              (List.getLast?_isSome.mpr (by simp : (y :: ys) ≠ ([] : List Char)))
            have hdw := collapseWsAux_all_ws (y :: ys) true he d (List.mem_of_mem_getLast? hd)
            rw [hl2 d hd] at hdw
            cases hdw
          cases hX : collapseWsAux true (y :: ys) with
          | nil => exact absurd hX hne
          | cons z zs =>
            rw [hX, List.getLast?_cons_cons] at hc
            exact ih true hl2 c (by rw [hX]; exact hc)
      · rw [collapseWsAux_cons_nonws b x (y :: ys) (Bool.not_eq_true _ |>.mp hx)] at hc
        have hne := collapseWsAux_ne_nil_of_false y ys
        cases hX : collapseWsAux false (y :: ys) with
        | nil => exact absurd hX hne
        | cons z zs =>
          rw [hX, List.getLast?_cons_cons] at hc
          exact ih false hl2 c (by rw [hX]; exact hc)

theorem collapseWsAux_idem (l : List Char) :
    ∀ b, collapseWsAux b (collapseWsAux b l) = collapseWsAux b l := by
  induction l with
  | nil => intro b; rfl
  | cons c cs ih =>
    intro b
    by_cases h : isWsB c
    · cases b with
      | true =>
        rw [collapseWsAux_cons_ws_true c cs h]
        exact ih true
      | false =>
        rw [collapseWsAux_cons_ws_false c cs h]
        rw [collapseWsAux_cons_ws_false ' ' (collapseWsAux true cs) (by decide)]
        rw [ih true]
    · have h' : isWsB c = false := Bool.not_eq_true _ |>.mp h
      rw [collapseWsAux_cons_nonws b c cs h']
      rw [collapseWsAux_cons_nonws b c (collapseWsAux false cs) h']
      rw [ih false]

theorem normalizeForHash_head_false (l : List Char) :
    ∀ c, (normalizeForHash l).head? = some c → isWsB c = false := by
  intro c h
  unfold normalizeForHash collapseWsL at h
  cases hT : trimL (toLowerL l) with
  | nil =>
    rw [hT] at h
    cases h
  | cons x xs =>
    have hx : isWsB x = false := trimL_head_false (toLowerL l) x (by rw [hT]; rfl)
    rw [hT, collapseWsAux_cons_nonws false x xs hx, List.head?_cons] at h
    injection h with h2
    subst h2
    exact hx

theorem normalizeForHash_getLast_false (l : List Char) :
    ∀ c, (normalizeForHash l).getLast? = some c → isWsB c = false :=
  collapseWsAux_getLast_false (trimL (toLowerL l)) false (trimL_getLast_false (toLowerL l))

theorem normalizeForHash_idem (l : List Char) :
    normalizeForHash (normalizeForHash l) = normalizeForHash l := by
  have hlow : toLowerL (normalizeForHash l) = normalizeForHash l := by
    unfold normalizeForHash collapseWsL
    rw [collapseWsAux_map_lower (trimL (toLowerL l)) false]
    rw [show toLowerL (trimL (toLowerL l)) = trimL (toLowerL (toLowerL l)) from
      (trimL_map_lower (toLowerL l)).symm]
    rw [toLowerL_idem]
  have htrim : trimL (normalizeForHash l) = normalizeForHash l :=
    trimL_eq_self _ (normalizeForHash_head_false l) (normalizeForHash_getLast_false l)
  have hcol : collapseWsL (normalizeForHash l) = normalizeForHash l := by
    unfold normalizeForHash collapseWsL
    exact collapseWsAux_idem (trimL (toLowerL l)) false
  show collapseWsL (trimL (toLowerL (normalizeForHash l))) = normalizeForHash l
  rw [hlow, htrim, hcol]

/-- C8 (counterexample): `quickClean` is not idempotent — on the input
`!um!` the filler pass removes `um` and fuses the two exclamation marks into
`!!` only after the repeated-punctuation pass has already run, so a second
application still collapses `!!` to `!`. -/
theorem quickClean_not_idempotent :
    quickClean bangUmBang = "!!" ∧
    quickClean (quickClean bangUmBang) = "!" ∧
    quickClean (quickClean bangUmBang) ≠ quickClean bangUmBang := by
  with_unfolding_all decide

/-- C8 (amended): the cache-key canonicalization of `hashText` (lowercase,
trim, collapse internal whitespace) is idempotent for all texts; the
`quickClean` cleaning step, by contrast, is not idempotent. -/
theorem hash_normalize_idempotent (t : String) :
    normalizeForHashS (normalizeForHashS t) = normalizeForHashS t :=
  congrArg String.mk (normalizeForHash_idem t.data)

/-- C8 (witness): the amended idempotence at a concrete mixed-case,
mixed-whitespace input. -/
theorem hash_normalize_idempotent_witness :
    normalizeForHashS "  HeLLo   World  " = "hello world" ∧
    normalizeForHashS (normalizeForHashS "  HeLLo   World  ") =
      normalizeForHashS "  HeLLo   World  " :=
  ⟨by with_unfolding_all decide, hash_normalize_idempotent "  HeLLo   World  "⟩
